import Mathlib

/-!
# Verification of the AlphaArena trading bot against its specification

Shallow embedding of the state and operations of the AlphaArena repository:
`roll_tracker.py`, `trailing_stop_manager.py`, `performance_tracker.py`,
`risk_manager.py`, `advanced_position_manager.py` and `alpha_arena_bot.py`.
Python floats are modelled as exact rationals (`ℚ`); Python's `round(x, n)`
(banker's rounding to `n` decimal places) is modelled by `pyRound`; Python
dicts keyed by symbol are modelled as functions `String → Option _`.
-/

namespace AlphaArena

/-- Python's `round` to an integer: round half to even (banker's rounding). -/
def pyRoundInt (q : ℚ) : ℤ :=
  let n := ⌊q⌋
  let f := q - n
  if f < 1/2 then n
  else if 1/2 < f then n + 1
  else if n % 2 = 0 then n else n + 1

/-- Python's `round(q, d)`: round to `d` decimal places, half to even. -/
def pyRound (q : ℚ) (d : ℕ) : ℚ :=
  (pyRoundInt (q * 10 ^ d) : ℚ) / 10 ^ d

/-! ## RollTracker (`src/roll_tracker.py`)

A ledger maps a symbol to its roll record.  The JSON file persistence
(`_load` / `_save`) is invisible to the claims and is not modelled. -/

/-- One entry of `roll_history` (`increment_roll_count`, lines 165-174).
The fields taken from `roll_details.get(...)` are `Option`s because
`dict.get` yields `None` for a missing key.  The timestamp is not modelled. -/
structure RollHistoryEntry where
  roll_number : ℕ
  current_price : Option ℚ
  unrealized_pnl : Option ℚ
  profit_pct : Option ℚ
  reinvest_amount : Option ℚ
  new_position_qty : Option ℚ
  leverage : Option ℚ
  deriving Repr, DecidableEq

/-- The `roll_details` dict passed to `increment_roll_count`. -/
structure RollDetails where
  current_price : Option ℚ
  unrealized_pnl : Option ℚ
  profit_pct : Option ℚ
  reinvest_amount : Option ℚ
  new_position_qty : Option ℚ
  leverage : Option ℚ
  deriving Repr, DecidableEq

/-- Per-symbol record stored in `RollTracker.data` (`initialize_position`,
lines 113-122).  `created_at` / `last_updated` timestamps are not modelled. -/
structure RollRecord where
  symbol : String
  original_entry_price : ℚ
  original_position_amt : ℚ
  side : String
  roll_count : ℕ
  roll_history : List RollHistoryEntry
  deriving Repr, DecidableEq

/-- `RollTracker.data`: a dict from symbol to record. -/
def RollLedger := String → Option RollRecord

/-- The empty ledger (a fresh `RollTracker` with no saved state). -/
def RollLedger.empty : RollLedger := fun _ => none

/-- `RollTracker.initialize_position` (lines 102-127): overwrite the
symbol's record with a fresh one (`roll_count = 0`, empty history). -/
def initialize_position (L : RollLedger) (symbol : String)
    (entry_price position_amt : ℚ) (side : String) : RollLedger :=
  fun s => if s = symbol then
    some { symbol := symbol
           original_entry_price := entry_price
           original_position_amt := |position_amt|
           side := side
           roll_count := 0
           roll_history := [] }
  else L s

/-- `RollTracker.increment_roll_count` (lines 129-185): returns the updated
ledger and the returned count.  Unknown symbol → `(L, 0)`; count already at 6
(`new_count > 6`) → `(L, 6)` with no change; otherwise bump the count and
append one history entry carrying the new count. -/
def increment_roll_count (L : RollLedger) (symbol : String)
    (roll_details : RollDetails) : RollLedger × ℕ :=
  match L symbol with
  | none => (L, 0)
  | some r =>
    let new_count := r.roll_count + 1
    if new_count > 6 then (L, 6)
    else
      let entry : RollHistoryEntry :=
        { roll_number := new_count
          current_price := roll_details.current_price
          unrealized_pnl := roll_details.unrealized_pnl
          profit_pct := roll_details.profit_pct
          reinvest_amount := roll_details.reinvest_amount
          new_position_qty := roll_details.new_position_qty
          leverage := roll_details.leverage }
      let r' := { r with roll_count := new_count
                         roll_history := r.roll_history ++ [entry] }
      (fun s => if s = symbol then some r' else L s, new_count)

/-- `RollTracker.clear_symbol` (lines 208-224): delete the record. -/
def clear_symbol (L : RollLedger) (symbol : String) : RollLedger :=
  fun s => if s = symbol then none else L s

/-- One observable mutation of the roll ledger. -/
inductive RollOp where
  | init (symbol : String) (entry_price position_amt : ℚ) (side : String)
  | increment (symbol : String) (details : RollDetails)
  | clear (symbol : String)

/-- Apply one operation to the ledger (dropping `increment`'s return value). -/
def RollOp.apply (L : RollLedger) : RollOp → RollLedger
  | .init s e p side => initialize_position L s e p side
  | .increment s d => (increment_roll_count L s d).1
  | .clear s => clear_symbol L s

/-- Run a sequence of operations from a given ledger. -/
def runRollOps (L : RollLedger) (ops : List RollOp) : RollLedger :=
  ops.foldl RollOp.apply L

/-- The ledger invariant of the spec: every stored record has
`roll_count ∈ [0, 6]` and `len(roll_history) = roll_count`. -/
def RollInvariant (L : RollLedger) : Prop :=
  ∀ s r, L s = some r → r.roll_count ≤ 6 ∧ r.roll_history.length = r.roll_count

lemma rollInvariant_empty : RollInvariant RollLedger.empty := by
  intro s r h
  simp [RollLedger.empty] at h

lemma rollInvariant_step {L : RollLedger} (h : RollInvariant L) (op : RollOp) :
    RollInvariant (op.apply L) := by
  intro s r hr
  cases op with
  | init sym e p side =>
    simp only [RollOp.apply, initialize_position] at hr
    by_cases hs : s = sym
    · rw [if_pos hs, Option.some.injEq] at hr
      subst hr
      simp
    · rw [if_neg hs] at hr
      exact h s r hr
  | increment sym d =>
    simp only [RollOp.apply, increment_roll_count] at hr
    cases hL : L sym with
    | none =>
      simp only [hL] at hr
      exact h s r hr
    | some r0 =>
      simp only [hL] at hr
      by_cases hc : r0.roll_count + 1 > 6
      · rw [if_pos hc] at hr
        exact h s r hr
      · rw [if_neg hc] at hr
        simp only at hr
        by_cases hs : s = sym
        · rw [if_pos hs, Option.some.injEq] at hr
          subst hr
          refine ⟨?_, ?_⟩
          · show r0.roll_count + 1 ≤ 6
            omega
          · show (r0.roll_history ++ [_]).length = r0.roll_count + 1
            have := (h sym r0 hL).2
            simp [this]
        · rw [if_neg hs] at hr
          exact h s r hr
  | clear sym =>
    simp only [RollOp.apply, clear_symbol] at hr
    by_cases hs : s = sym
    · simp [hs] at hr
    · rw [if_neg hs] at hr
      exact h s r hr

lemma rollInvariant_run {L : RollLedger} (h : RollInvariant L) (ops : List RollOp) :
    RollInvariant (runRollOps L ops) := by
  induction ops generalizing L with
  | nil => exact h
  | cons op rest ih => exact ih (rollInvariant_step h op)

/-- C1: For every symbol, starting from an empty ledger, after any sequence of
`initialize_position` / `increment_roll_count` / `clear_symbol` operations,
the stored `roll_count` lies in `[0, 6]` and the length of `roll_history`
equals `roll_count` at every observation point (every prefix of operations is
itself a sequence, so the invariant holds at every intermediate ledger). -/
theorem roll_ledger_invariant (ops : List RollOp) (s : String) (r : RollRecord)
    (h : runRollOps RollLedger.empty ops s = some r) :
    0 ≤ r.roll_count ∧ r.roll_count ≤ 6 ∧ r.roll_history.length = r.roll_count := by
  have := rollInvariant_run rollInvariant_empty ops s r h
  exact ⟨Nat.zero_le _, this.1, this.2⟩

/-- Witness for `roll_ledger_invariant`: run init, two increments and observe. -/
theorem roll_ledger_invariant_witness :
    ∃ r, runRollOps RollLedger.empty
        [RollOp.init "BTCUSDT" 44000 (1/100) "LONG",
         RollOp.increment "BTCUSDT" ⟨some 45320, some 132, some (13/2), some 85, some (3/100), some 15⟩,
         RollOp.increment "BTCUSDT" ⟨none, none, none, none, none, none⟩] "BTCUSDT" = some r ∧
      0 ≤ r.roll_count ∧ r.roll_count ≤ 6 ∧ r.roll_history.length = r.roll_count := by
  have h : runRollOps RollLedger.empty
      [RollOp.init "BTCUSDT" 44000 (1/100) "LONG",
       RollOp.increment "BTCUSDT" ⟨some 45320, some 132, some (13/2), some 85, some (3/100), some 15⟩,
       RollOp.increment "BTCUSDT" ⟨none, none, none, none, none, none⟩] "BTCUSDT" =
      some { symbol := "BTCUSDT", original_entry_price := 44000,
             original_position_amt := |(1/100 : ℚ)|, side := "LONG", roll_count := 2,
             roll_history :=
               [⟨1, some 45320, some 132, some (13/2), some 85, some (3/100), some 15⟩,
                ⟨2, none, none, none, none, none, none⟩] } := rfl
  exact ⟨_, h, roll_ledger_invariant _ "BTCUSDT" _ h⟩

/-- The history entry built by `increment_roll_count` for the new count. -/
def mkRollHistoryEntry (new_count : ℕ) (d : RollDetails) : RollHistoryEntry :=
  { roll_number := new_count
    current_price := d.current_price
    unrealized_pnl := d.unrealized_pnl
    profit_pct := d.profit_pct
    reinvest_amount := d.reinvest_amount
    new_position_qty := d.new_position_qty
    leverage := d.leverage }

/-- C6: `increment_roll_count` on a record already at `roll_count = 6` returns
6 and leaves the ledger (hence the record's count and history length)
unchanged; on a record with `roll_count < 6` it returns the incremented count
and stores the record with `roll_count` bumped by one and exactly one history
entry appended whose `roll_number` equals the new count. -/
theorem increment_roll_count_spec (L : RollLedger) (symbol : String)
    (r : RollRecord) (d : RollDetails) (h : L symbol = some r) :
    (r.roll_count = 6 → increment_roll_count L symbol d = (L, 6)) ∧
    (r.roll_count < 6 →
      (increment_roll_count L symbol d).2 = r.roll_count + 1 ∧
      (increment_roll_count L symbol d).1 symbol =
        some { r with roll_count := r.roll_count + 1
                      roll_history :=
                        r.roll_history ++ [mkRollHistoryEntry (r.roll_count + 1) d] }) := by
  constructor
  · intro h6
    simp only [increment_roll_count, h, h6]
    norm_num
  · intro hlt
    have hc : ¬ (r.roll_count + 1 > 6) := by omega
    simp only [increment_roll_count, h, if_neg hc, mkRollHistoryEntry]
    exact ⟨trivial, by simp⟩

/-- Witness for `increment_roll_count_spec`: a ledger holding one record at
count 6 and one at count 2, exercising both branches. -/
theorem increment_roll_count_spec_witness :
    (increment_roll_count
        (fun s => if s = "A" then
          some { symbol := "A", original_entry_price := 10, original_position_amt := 1,
                 side := "LONG", roll_count := 6,
                 roll_history := [⟨1, none, none, none, none, none, none⟩,
                                  ⟨2, none, none, none, none, none, none⟩,
                                  ⟨3, none, none, none, none, none, none⟩,
                                  ⟨4, none, none, none, none, none, none⟩,
                                  ⟨5, none, none, none, none, none, none⟩,
                                  ⟨6, none, none, none, none, none, none⟩] }
          else none) "A" ⟨none, none, none, none, none, none⟩).2 = 6 ∧
    (increment_roll_count
        (fun s => if s = "B" then
          some { symbol := "B", original_entry_price := 10, original_position_amt := 1,
                 side := "SHORT", roll_count := 2,
                 roll_history := [⟨1, none, none, none, none, none, none⟩,
                                  ⟨2, none, none, none, none, none, none⟩] }
          else none) "B" ⟨none, none, none, none, none, none⟩).2 = 3 := by
  constructor
  · have := (increment_roll_count_spec
      (fun s => if s = "A" then
        some { symbol := "A", original_entry_price := 10, original_position_amt := 1,
               side := "LONG", roll_count := 6,
               roll_history := [⟨1, none, none, none, none, none, none⟩,
                                ⟨2, none, none, none, none, none, none⟩,
                                ⟨3, none, none, none, none, none, none⟩,
                                ⟨4, none, none, none, none, none, none⟩,
                                ⟨5, none, none, none, none, none, none⟩,
                                ⟨6, none, none, none, none, none, none⟩] }
        else none) "A" _ ⟨none, none, none, none, none, none⟩ rfl).1 rfl
    rw [this]
  · exact ((increment_roll_count_spec
      (fun s => if s = "B" then
        some { symbol := "B", original_entry_price := 10, original_position_amt := 1,
               side := "SHORT", roll_count := 2,
               roll_history := [⟨1, none, none, none, none, none, none⟩,
                                ⟨2, none, none, none, none, none, none⟩] }
        else none) "B" _ ⟨none, none, none, none, none, none⟩ rfl).2 (by norm_num)).1

/-! ## TrailingStopManager (`src/trailing_stop_manager.py`) -/

/-- Position side of a trailing stop (the code checks `side == 'LONG'` and
treats everything else as SHORT; only these two values are ever stored). -/
inductive Side where
  | LONG
  | SHORT
  deriving Repr, DecidableEq

/-- One entry of `TrailingStopManager.trailing_stops` (`initialize_stop`,
lines 51-64).  `highest_price` is `None` for SHORT records and
`lowest_price` is `None` for LONG records.  Timestamps are not modelled. -/
structure StopData where
  side : Side
  entry_price : ℚ
  current_stop : ℚ
  initial_stop : ℚ
  atr : ℚ
  atr_multiplier : ℚ
  position_size : ℚ
  highest_price : Option ℚ
  lowest_price : Option ℚ
  triggered : Bool
  deriving Repr, DecidableEq

/-- `TrailingStopManager.initialize_stop` (lines 26-74); `mult` is the
manager's `atr_multiplier`. -/
def initialize_stop (mult : ℚ) (side : Side) (entry_price atr position_size : ℚ) :
    StopData :=
  let stop_distance := atr * mult
  match side with
  | .LONG =>
    { side := .LONG, entry_price := entry_price
      current_stop := entry_price - stop_distance
      initial_stop := entry_price - stop_distance
      atr := atr, atr_multiplier := mult, position_size := position_size
      highest_price := some entry_price, lowest_price := none
      triggered := false }
  | .SHORT =>
    { side := .SHORT, entry_price := entry_price
      current_stop := entry_price + stop_distance
      initial_stop := entry_price + stop_distance
      atr := atr, atr_multiplier := mult, position_size := position_size
      highest_price := none, lowest_price := some entry_price
      triggered := false }

/-- `TrailingStopManager.update_stop` (lines 76-131) acting on one record;
`mult` is the manager's `atr_multiplier`.  On a new favourable extreme the
extreme is recorded and the stop replaced only if the candidate is more
favourable; the stored ATR is refreshed unconditionally.  (A `none` extreme
for the record's own side never arises from `initialize_stop`; the `none`
branch leaves the record's stop untouched.) -/
def update_stop (mult : ℚ) (sd : StopData) (current_price atr : ℚ) : StopData :=
  let stop_distance := atr * mult
  let sd1 :=
    match sd.side with
    | .LONG =>
      match sd.highest_price with
      | some h =>
        if current_price > h then
          let new_stop := current_price - stop_distance
          if new_stop > sd.current_stop then
            { sd with highest_price := some current_price, current_stop := new_stop }
          else
            { sd with highest_price := some current_price }
        else sd
      | none => sd
    | .SHORT =>
      match sd.lowest_price with
      | some l =>
        if current_price < l then
          let new_stop := current_price + stop_distance
          if new_stop < sd.current_stop then
            { sd with lowest_price := some current_price, current_stop := new_stop }
          else
            { sd with lowest_price := some current_price }
        else sd
      | none => sd
  { sd1 with atr := atr }

/-- A sequence of `update_stop` calls, each with a `(current_price, atr)` pair. -/
def update_stop_seq (mult : ℚ) (sd : StopData) (updates : List (ℚ × ℚ)) : StopData :=
  updates.foldl (fun s pa => update_stop mult s pa.1 pa.2) sd

lemma update_stop_side (mult : ℚ) (sd : StopData) (p a : ℚ) :
    (update_stop mult sd p a).side = sd.side := by
  unfold update_stop
  cases h : sd.side <;> simp only [h]
  · cases sd.highest_price
    · simp [h]
    · dsimp only
      split
      · split <;> simp [h]
      · simp [h]
  · cases sd.lowest_price
    · simp [h]
    · dsimp only
      split
      · split <;> simp [h]
      · simp [h]

lemma update_stop_mono_long (mult : ℚ) (sd : StopData) (p a : ℚ)
    (h : sd.side = .LONG) :
    sd.current_stop ≤ (update_stop mult sd p a).current_stop := by
  unfold update_stop
  rw [h]
  cases sd.highest_price <;> dsimp only
  · exact le_refl _
  · split
    · split
      · next hgt => simp only; linarith
      · simp only; exact le_refl _
    · exact le_refl _

lemma update_stop_mono_short (mult : ℚ) (sd : StopData) (p a : ℚ)
    (h : sd.side = .SHORT) :
    (update_stop mult sd p a).current_stop ≤ sd.current_stop := by
  unfold update_stop
  rw [h]
  cases sd.lowest_price <;> dsimp only
  · exact le_refl _
  · split
    · split
      · next hlt => simp only; linarith
      · simp only; exact le_refl _
    · exact le_refl _

/-- C2: across any sequence of `update_stop` calls with arbitrary price and
ATR inputs, the stored `current_stop` never decreases for a LONG record and
never increases for a SHORT record: the stop only ratchets in the position's
favour. -/
theorem update_stop_seq_monotone (mult : ℚ) (sd : StopData)
    (updates : List (ℚ × ℚ)) :
    (sd.side = .LONG →
      sd.current_stop ≤ (update_stop_seq mult sd updates).current_stop) ∧
    (sd.side = .SHORT →
      (update_stop_seq mult sd updates).current_stop ≤ sd.current_stop) := by
  induction updates generalizing sd with
  | nil => exact ⟨fun _ => le_refl _, fun _ => le_refl _⟩
  | cons u rest ih =>
    constructor
    · intro h
      have h1 := update_stop_mono_long mult sd u.1 u.2 h
      have hside : (update_stop mult sd u.1 u.2).side = Side.LONG := by
        rw [update_stop_side, h]
      have h2 := (ih (update_stop mult sd u.1 u.2)).1 hside
      calc sd.current_stop ≤ (update_stop mult sd u.1 u.2).current_stop := h1
        _ ≤ _ := h2
    · intro h
      have h1 := update_stop_mono_short mult sd u.1 u.2 h
      have hside : (update_stop mult sd u.1 u.2).side = Side.SHORT := by
        rw [update_stop_side, h]
      have h2 := (ih (update_stop mult sd u.1 u.2)).2 hside
      calc (update_stop_seq mult sd (u :: rest)).current_stop
          ≤ (update_stop mult sd u.1 u.2).current_stop := h2
        _ ≤ sd.current_stop := h1

/-- Witness for `update_stop_seq_monotone`: a LONG stop initialised at entry
100 with ATR 1 and multiplier 2 keeps `current_stop ≥ 98` across a rally to
105, a dip to 90 and a new high at 110 with a larger ATR. -/
theorem update_stop_seq_monotone_witness :
    (initialize_stop 2 .LONG 100 1 1).side = Side.LONG ∧
    (initialize_stop 2 .LONG 100 1 1).current_stop ≤
      (update_stop_seq 2 (initialize_stop 2 .LONG 100 1 1)
        [(105, 1), (90, 3), (110, 2)]).current_stop :=
  ⟨rfl, (update_stop_seq_monotone 2 (initialize_stop 2 .LONG 100 1 1)
    [(105, 1), (90, 3), (110, 2)]).1 rfl⟩

/-- `TrailingStopManager.check_stop_triggered` (lines 133-172) acting on one
record: returns the updated record and the boolean result.  The trigger
condition is recomputed from the current price on every call; the only write
is setting `triggered := true` when the condition holds. -/
def check_stop_triggered (sd : StopData) (current_price : ℚ) : StopData × Bool :=
  let triggered :=
    match sd.side with
    | .LONG => decide (current_price ≤ sd.current_stop)
    | .SHORT => decide (current_price ≥ sd.current_stop)
  if triggered then ({ sd with triggered := true }, true)
  else (sd, false)

/-- Counterexample to C3: a LONG stop at 98 (entry 100, ATR 1, multiplier 2)
triggers at price 98, yet the very next `check_stop_triggered` call at price
99 returns `false`, not `true`: the code recomputes the trigger condition
from the price instead of consulting the stored `triggered` flag. -/
theorem check_stop_triggered_not_idempotent :
    (check_stop_triggered (initialize_stop 2 .LONG 100 1 1) 98).2 = true ∧
    ((check_stop_triggered (initialize_stop 2 .LONG 100 1 1) 98).1).triggered = true ∧
    (check_stop_triggered
      ((check_stop_triggered (initialize_stop 2 .LONG 100 1 1) 98).1) 99).2 = false := by
  refine ⟨?_, ?_, ?_⟩ <;> norm_num [check_stop_triggered, initialize_stop]

/-- C3 (amended): once a record's `triggered` flag is set, every later
`check_stop_triggered` call leaves the stored record exactly unchanged, and
returns `true` precisely when the current price is at or beyond the stored
stop for the record's side (LONG: `price ≤ stop`; SHORT: `price ≥ stop`) —
not unconditionally. -/
theorem check_stop_triggered_after_trigger (sd : StopData) (p : ℚ)
    (h : sd.triggered = true) :
    (check_stop_triggered sd p).1 = sd ∧
    ((check_stop_triggered sd p).2 = true ↔
      (sd.side = .LONG ∧ p ≤ sd.current_stop) ∨
      (sd.side = .SHORT ∧ sd.current_stop ≤ p)) := by
  constructor
  · cases sd with
    | mk side ep cs ist atr am ps hp lp tr =>
      simp only at h
      subst h
      unfold check_stop_triggered
      cases side <;> dsimp only <;> split <;> rfl
  · unfold check_stop_triggered
    cases hs : sd.side <;> simp only [hs]
    · by_cases hc : p ≤ sd.current_stop <;> simp [hc, hs]
    · by_cases hc : sd.current_stop ≤ p <;> simp [hc, hs, ge_iff_le]

/-- Witness for `check_stop_triggered_after_trigger`: an already-triggered
LONG record at stop 98 queried at price 97 (returns true, record unchanged). -/
theorem check_stop_triggered_after_trigger_witness :
    ((check_stop_triggered (initialize_stop 2 .LONG 100 1 1) 98).1).triggered = true ∧
    (check_stop_triggered
        ((check_stop_triggered (initialize_stop 2 .LONG 100 1 1) 98).1) 97).1 =
      (check_stop_triggered (initialize_stop 2 .LONG 100 1 1) 98).1 ∧
    ((check_stop_triggered
        ((check_stop_triggered (initialize_stop 2 .LONG 100 1 1) 98).1) 97).2 = true ↔
      (((check_stop_triggered (initialize_stop 2 .LONG 100 1 1) 98).1).side = .LONG ∧
        (97 : ℚ) ≤ ((check_stop_triggered (initialize_stop 2 .LONG 100 1 1) 98).1).current_stop) ∨
      (((check_stop_triggered (initialize_stop 2 .LONG 100 1 1) 98).1).side = .SHORT ∧
        ((check_stop_triggered (initialize_stop 2 .LONG 100 1 1) 98).1).current_stop ≤ 97)) := by
  have ht : ((check_stop_triggered (initialize_stop 2 .LONG 100 1 1) 98).1).triggered = true := by
    norm_num [check_stop_triggered, initialize_stop]
  exact ⟨ht, (check_stop_triggered_after_trigger _ 97 ht).1,
    (check_stop_triggered_after_trigger _ 97 ht).2⟩

/-! ## PerformanceTracker (`src/performance_tracker.py`) -/

/-- Trade actions appearing in `record_trade` / `record_trade_close`. -/
inductive Action where
  | OPEN_LONG
  | OPEN_SHORT
  | BUY
  | SELL
  | CLOSE
  deriving Repr, DecidableEq

/-- One record of `data['trades']` (`record_trade`, lines 66-78).  Fields not
involved in the verified claims (timestamps, stops, confidence, reasoning)
are omitted; `pnl` is `None` until the trade is closed. -/
structure Trade where
  symbol : String
  action : Action
  quantity : ℚ
  price : ℚ
  leverage : ℚ
  pnl : Option ℚ
  close_price : Option ℚ
  deriving Repr, DecidableEq

/-- The reverse-scan match of `record_trade_close` (lines 96-101): an
open-position record of this symbol whose `pnl` is still unset. -/
def isOpenTrade (symbol : String) (t : Trade) : Bool :=
  t.symbol = symbol ∧ (t.action = .OPEN_LONG ∨ t.action = .OPEN_SHORT) ∧ t.pnl = none

/-- The pnl computed by `record_trade_close` (lines 104-115): price
difference (sign flipped for a short) times quantity times leverage. -/
def closePnl (t : Trade) (close_price : ℚ) : ℚ :=
  (if t.action = .OPEN_LONG ∨ t.action = .BUY
   then close_price - t.price
   else t.price - close_price) * t.quantity * t.leverage

/-- The mutated entry record (lines 118-119): `pnl` is stored rounded to two
decimal places, `close_price` recorded (close time not modelled). -/
def closeTrade (t : Trade) (close_price : ℚ) : Trade :=
  { t with pnl := some (pyRound (closePnl t close_price) 2)
           close_price := some close_price }

/-- Helper for `record_trade_close`: scan the reversed trade list for the
first open match, mutate it in place and report the (unrounded) pnl. -/
def closeScan (symbol : String) (close_price : ℚ) :
    List Trade → Option (List Trade × ℚ)
  | [] => none
  | t :: rest =>
    if isOpenTrade symbol t then
      some (closeTrade t close_price :: rest, closePnl t close_price)
    else
      (closeScan symbol close_price rest).map (fun p => (t :: p.1, p.2))

/-- `PerformanceTracker.record_trade_close` (lines 83-128): scan the trade
list in reverse for the most recent still-open record of the symbol; if
found, mutate it in place and return the pnl; otherwise log a warning and
return 0 with the trades unchanged. -/
def record_trade_close (trades : List Trade) (symbol : String)
    (close_price : ℚ) : List Trade × ℚ :=
  match closeScan symbol close_price trades.reverse with
  | some (rev', pnl) => (rev'.reverse, pnl)
  | none => (trades, 0)

lemma closeScan_append_found (symbol : String) (cp : ℚ) (l1 l2 : List Trade)
    (t : Trade) (h1 : ∀ u ∈ l1, ¬ isOpenTrade symbol u)
    (ht : isOpenTrade symbol t) :
    closeScan symbol cp (l1 ++ t :: l2) =
      some (l1 ++ closeTrade t cp :: l2, closePnl t cp) := by
  induction l1 with
  | nil =>
    simp only [List.nil_append, closeScan, ht, if_pos]
  | cons u l1 ih =>
    have hu : ¬ isOpenTrade symbol u = true := h1 u (List.mem_cons_self u l1)
    have ih' := ih (fun v hv => h1 v (List.mem_cons_of_mem u hv))
    simp [closeScan, hu, ih']

lemma closeScan_none (symbol : String) (cp : ℚ) (l : List Trade)
    (h : ∀ u ∈ l, ¬ isOpenTrade symbol u) :
    closeScan symbol cp l = none := by
  induction l with
  | nil => rfl
  | cons u l ih =>
    have hu : ¬ isOpenTrade symbol u = true := h u (List.mem_cons_self u l)
    have ih' := ih (fun v hv => h v (List.mem_cons_of_mem u hv))
    simp [closeScan, hu, ih']

/-- Counterexample to C4: one open LONG trade (entry 100, quantity 1,
leverage 1) closed at 100.013.  The claim's pnl is 0.013, but the code stores
`round(0.013, 2) = 0.01` in the record, so the stored pnl differs from
`(closePrice − entryPrice) × quantity × leverage`. -/
theorem record_trade_close_rounds_stored_pnl :
    ((record_trade_close [⟨"BTCUSDT", .OPEN_LONG, 1, 100, 1, none, none⟩]
        "BTCUSDT" (100013/1000)).1.head?.map Trade.pnl) = some (some (1/100)) ∧
    (1/100 : ℚ) ≠ ((100013/1000 : ℚ) - 100) * 1 * 1 ∧
    (record_trade_close [⟨"BTCUSDT", .OPEN_LONG, 1, 100, 1, none, none⟩]
        "BTCUSDT" (100013/1000)).2 = ((100013/1000 : ℚ) - 100) * 1 * 1 := by
  have h1 : isOpenTrade "BTCUSDT"
      ⟨"BTCUSDT", .OPEN_LONG, 1, 100, 1, none, none⟩ = true := by decide
  have h2 : record_trade_close [⟨"BTCUSDT", .OPEN_LONG, 1, 100, 1, none, none⟩]
      "BTCUSDT" (100013/1000) =
      ([closeTrade ⟨"BTCUSDT", .OPEN_LONG, 1, 100, 1, none, none⟩ (100013/1000)],
       closePnl ⟨"BTCUSDT", .OPEN_LONG, 1, 100, 1, none, none⟩ (100013/1000)) := by
    simp [record_trade_close, closeScan, h1]
  have h3 : closePnl ⟨"BTCUSDT", .OPEN_LONG, 1, 100, 1, none, none⟩ (100013/1000) =
      (13/1000 : ℚ) := by
    norm_num [closePnl]
  refine ⟨?_, by norm_num, ?_⟩
  · rw [h2]
    simp only [List.head?, Option.map_some, closeTrade, h3]
    norm_num [pyRound, pyRoundInt]
  · rw [h2, h3]
    norm_num


/-- C4 (amended): `record_trade_close` scans the trade list in reverse for
the most recent still-open record of the symbol; it mutates exactly that
record in place, storing as its `pnl` the value
`(closePrice − entryPrice) × quantity × leverage` (sign flipped for a short)
*rounded to two decimal places*, and returns the unrounded value; a close at
the entry price yields pnl exactly 0 (also after rounding); when no open
record of the symbol exists it returns 0 and modifies no trade record. -/
theorem record_trade_close_spec :
    (∀ (pre post : List Trade) (t : Trade) (symbol : String) (cp : ℚ),
      isOpenTrade symbol t →
      (∀ u ∈ post, ¬ isOpenTrade symbol u) →
      record_trade_close (pre ++ t :: post) symbol cp =
        (pre ++ closeTrade t cp :: post, closePnl t cp)) ∧
    (∀ (trades : List Trade) (symbol : String) (cp : ℚ),
      (∀ u ∈ trades, ¬ isOpenTrade symbol u) →
      record_trade_close trades symbol cp = (trades, 0)) ∧
    (∀ t : Trade, closePnl t t.price = 0 ∧
      closeTrade t t.price =
        { t with pnl := some 0, close_price := some t.price }) := by
  refine ⟨?_, ?_, ?_⟩
  · intro pre post t symbol cp ht hpost
    have hrev : (pre ++ t :: post).reverse = post.reverse ++ t :: pre.reverse := by
      simp
    have hscan := closeScan_append_found symbol cp post.reverse pre.reverse t
      (fun u hu => hpost u (List.mem_reverse.mp hu)) ht
    simp only [record_trade_close, hrev, hscan]
    simp
  · intro trades symbol cp h
    have hscan := closeScan_none symbol cp trades.reverse
      (fun u hu => h u (List.mem_reverse.mp hu))
    simp only [record_trade_close, hscan]
  · intro t
    constructor
    · unfold closePnl
      split <;> ring
    · unfold closeTrade
      have h : closePnl t t.price = 0 := by unfold closePnl; split <;> ring
      rw [h]
      norm_num [pyRound, pyRoundInt]

/-- Witness for `record_trade_close_spec`: a short opened at 95 and closed at
90 among other trades — pnl = (95 − 90) × 2 × 3 = 30, stored and returned
— and a close with no open record, returning 0 and changing nothing. -/
theorem record_trade_close_spec_witness :
    record_trade_close
        [⟨"ETHUSDT", .OPEN_SHORT, 2, 95, 3, none, none⟩,
         ⟨"BTCUSDT", .OPEN_LONG, 1, 100, 1, none, none⟩]
        "ETHUSDT" 90 =
      ([closeTrade ⟨"ETHUSDT", .OPEN_SHORT, 2, 95, 3, none, none⟩ 90,
        ⟨"BTCUSDT", .OPEN_LONG, 1, 100, 1, none, none⟩],
       closePnl ⟨"ETHUSDT", .OPEN_SHORT, 2, 95, 3, none, none⟩ 90) ∧
    record_trade_close [⟨"BTCUSDT", .OPEN_LONG, 1, 100, 1, some 5, some 105⟩]
        "BTCUSDT" 99 =
      ([⟨"BTCUSDT", .OPEN_LONG, 1, 100, 1, some 5, some 105⟩], 0) := by
  constructor
  · exact record_trade_close_spec.1 []
      [⟨"BTCUSDT", .OPEN_LONG, 1, 100, 1, none, none⟩]
      ⟨"ETHUSDT", .OPEN_SHORT, 2, 95, 3, none, none⟩ "ETHUSDT" 90
      (by decide) (by decide)
  · exact record_trade_close_spec.2.1
      [⟨"BTCUSDT", .OPEN_LONG, 1, 100, 1, some 5, some 105⟩] "BTCUSDT" 99
      (by decide)

/-! ### Win rate (`_calculate_win_rate`, lines 282-315) -/

/-- The closed trades: those with a recorded pnl (line 294). -/
def tradesWithPnl (trades : List Trade) : List Trade :=
  trades.filter (fun t => t.pnl.isSome)

/-- Winning closed trades: recorded pnl strictly positive (line 300). -/
def winCount (trades : List Trade) : ℕ :=
  ((tradesWithPnl trades).filter (fun t => 0 < t.pnl.getD 0)).length

/-- Losing closed trades: recorded pnl ≤ 0, a breakeven counts as a loss
(line 301). -/
def lossCount (trades : List Trade) : ℕ :=
  ((tradesWithPnl trades).filter (fun t => t.pnl.getD 0 ≤ 0)).length

/-- `PerformanceTracker._calculate_win_rate` (lines 282-315):
`wins / (wins + losses) × 100`, or 0 with no trades, no recorded pnl, or an
empty win/loss tally. -/
def calculate_win_rate (trades : List Trade) : ℚ :=
  if trades.length = 0 then 0
  else if (tradesWithPnl trades).length = 0 then 0
  else if winCount trades + lossCount trades = 0 then 0
  else (winCount trades : ℚ) / (winCount trades + lossCount trades) * 100

lemma winCount_add_lossCount (trades : List Trade) :
    winCount trades + lossCount trades = (tradesWithPnl trades).length := by
  unfold winCount lossCount
  induction tradesWithPnl trades with
  | nil => rfl
  | cons t l ih =>
    by_cases h : 0 < t.pnl.getD 0
    · have h' : ¬ t.pnl.getD 0 ≤ 0 := not_le.mpr h
      simp [List.filter_cons, h, h']
      omega
    · have h' : t.pnl.getD 0 ≤ 0 := not_lt.mp h
      simp [List.filter_cons, h, h']
      omega

/-- Counterexample to C10's final clause: with one closed losing trade and one
still-open trade, a breakeven close (its pnl set from `None` to 0) leaves the
win rate at 0 instead of strictly lowering it. -/
theorem breakeven_close_does_not_always_lower_win_rate :
    ¬ (calculate_win_rate
        [⟨"B", .OPEN_LONG, 1, 100, 1, some (-1), some 99⟩,
         ⟨"B", .OPEN_LONG, 1, 100, 1, some 0, some 100⟩] <
       calculate_win_rate
        [⟨"B", .OPEN_LONG, 1, 100, 1, some (-1), some 99⟩,
         ⟨"B", .OPEN_LONG, 1, 100, 1, none, none⟩]) := by
  have h1 : calculate_win_rate
      [⟨"B", .OPEN_LONG, 1, 100, 1, some (-1), some 99⟩,
       ⟨"B", .OPEN_LONG, 1, 100, 1, some 0, some 100⟩] = 0 := by
    norm_num [calculate_win_rate, tradesWithPnl, winCount, lossCount,
      List.filter]
  have h2 : calculate_win_rate
      [⟨"B", .OPEN_LONG, 1, 100, 1, some (-1), some 99⟩,
       ⟨"B", .OPEN_LONG, 1, 100, 1, none, none⟩] = 0 := by
    norm_num [calculate_win_rate, tradesWithPnl, winCount, lossCount,
      List.filter]
  rw [h1, h2]
  exact lt_irrefl 0

/-- C10 (amended): the win rate counts a breakeven (pnl = 0) close as a loss:
it always equals `100 × #(pnl > 0) / #(recorded pnl)` (0 when no trade has a
recorded pnl), and a breakeven close — setting the pnl of an open trade from
`None` to 0 — strictly lowers the win rate whenever at least one winning
trade is recorded, while a win rate of 0 stays 0. -/
theorem calculate_win_rate_spec :
    (∀ trades : List Trade,
      calculate_win_rate trades =
        if (tradesWithPnl trades).length = 0 then 0
        else (winCount trades : ℚ) / (tradesWithPnl trades).length * 100) ∧
    (∀ (pre post : List Trade) (t : Trade), t.pnl = none →
      (0 < winCount (pre ++ t :: post) →
        calculate_win_rate (pre ++ { t with pnl := some 0 } :: post) <
          calculate_win_rate (pre ++ t :: post)) ∧
      (winCount (pre ++ t :: post) = 0 →
        calculate_win_rate (pre ++ { t with pnl := some 0 } :: post) =
          calculate_win_rate (pre ++ t :: post))) := by
  have formula : ∀ trades : List Trade,
      calculate_win_rate trades =
        if (tradesWithPnl trades).length = 0 then 0
        else (winCount trades : ℚ) / (tradesWithPnl trades).length * 100 := by
    intro trades
    unfold calculate_win_rate
    have htot := winCount_add_lossCount trades
    by_cases h0 : trades.length = 0
    · have he : trades = [] := List.length_eq_zero.mp h0
      subst he
      simp [tradesWithPnl]
    · rw [if_neg h0]
      by_cases h1 : (tradesWithPnl trades).length = 0
      · rw [if_pos h1, if_pos h1]
      · rw [if_neg h1, if_neg h1]
        have hne : winCount trades + lossCount trades ≠ 0 := by omega
        rw [if_neg hne]
        have hcast : ((winCount trades : ℚ) + (lossCount trades : ℚ)) =
            ((tradesWithPnl trades).length : ℚ) := by exact_mod_cast htot
        rw [hcast]
  refine ⟨formula, ?_⟩
  intro pre post t ht
  have hwp : tradesWithPnl (pre ++ t :: post) =
      tradesWithPnl pre ++ tradesWithPnl post := by
    simp [tradesWithPnl, List.filter_append, List.filter_cons, ht]
  have hwp' : tradesWithPnl (pre ++ { t with pnl := some 0 } :: post) =
      tradesWithPnl pre ++ { t with pnl := some 0 } :: tradesWithPnl post := by
    simp [tradesWithPnl, List.filter_append, List.filter_cons]
  have hlen : (tradesWithPnl (pre ++ { t with pnl := some 0 } :: post)).length =
      (tradesWithPnl (pre ++ t :: post)).length + 1 := by
    rw [hwp, hwp']
    simp only [List.length_append, List.length_cons]
    omega
  have hwin : winCount (pre ++ { t with pnl := some 0 } :: post) =
      winCount (pre ++ t :: post) := by
    unfold winCount
    rw [hwp, hwp']
    simp [List.filter_append, List.filter_cons]
  constructor
  · intro hw
    rw [formula, formula, hwin, hlen]
    have hle : winCount (pre ++ t :: post) ≤
        (tradesWithPnl (pre ++ t :: post)).length := List.length_filter_le _ _
    have hn : (tradesWithPnl (pre ++ t :: post)).length ≠ 0 := by omega
    rw [if_neg hn, if_neg (by omega : (tradesWithPnl (pre ++ t :: post)).length + 1 ≠ 0)]
    have hwq : (0:ℚ) < (winCount (pre ++ t :: post) : ℚ) := by exact_mod_cast hw
    have hnq : (0:ℚ) < ((tradesWithPnl (pre ++ t :: post)).length : ℚ) := by
      exact_mod_cast Nat.pos_of_ne_zero hn
    push_cast
    have hdiv : (winCount (pre ++ t :: post) : ℚ) /
          (((tradesWithPnl (pre ++ t :: post)).length : ℚ) + 1) <
        (winCount (pre ++ t :: post) : ℚ) /
          ((tradesWithPnl (pre ++ t :: post)).length : ℚ) := by
      rw [div_lt_div_iff₀ (by linarith) hnq]
      nlinarith
    exact mul_lt_mul_of_pos_right hdiv (by norm_num)
  · intro hw0
    rw [formula, formula, hwin, hlen, hw0]
    by_cases hn : (tradesWithPnl (pre ++ t :: post)).length = 0
    · rw [hn]
      norm_num
    · rw [if_neg hn, if_neg (by omega : (tradesWithPnl (pre ++ t :: post)).length + 1 ≠ 0)]
      norm_num

/-- Witness for `calculate_win_rate_spec`: one win and one open trade; the
breakeven close drops the win rate from 100 to 50. -/
theorem calculate_win_rate_spec_witness :
    (Trade.pnl ⟨"B", .OPEN_LONG, 1, 100, 1, none, none⟩ = none) ∧
    0 < winCount [⟨"A", .OPEN_LONG, 1, 10, 1, some 2, some 12⟩,
                  ⟨"B", .OPEN_LONG, 1, 100, 1, none, none⟩] ∧
    calculate_win_rate
        [⟨"A", .OPEN_LONG, 1, 10, 1, some 2, some 12⟩,
         ⟨"B", .OPEN_LONG, 1, 100, 1, some 0, some 100⟩] <
      calculate_win_rate
        [⟨"A", .OPEN_LONG, 1, 10, 1, some 2, some 12⟩,
         ⟨"B", .OPEN_LONG, 1, 100, 1, none, none⟩] := by
  have hw : 0 < winCount [⟨"A", .OPEN_LONG, 1, 10, 1, some 2, some 12⟩,
      ⟨"B", .OPEN_LONG, 1, 100, 1, none, none⟩] := by
    norm_num [winCount, tradesWithPnl, List.filter]
  exact ⟨rfl, hw,
    ((calculate_win_rate_spec.2 [⟨"A", .OPEN_LONG, 1, 10, 1, some 2, some 12⟩] []
      ⟨"B", .OPEN_LONG, 1, 100, 1, none, none⟩ rfl).1 hw)⟩

/-! ### Sharpe ratio (`_calculate_sharpe_ratio`, lines 225-256)

The snapshot values of `data['portfolio_values']` are the `ℚ` inputs. -/

/-- The successive snapshot-to-snapshot returns
`(values[i] − values[i−1]) / values[i−1]` (lines 234-237). -/
def pct_returns (values : List ℚ) : List ℚ :=
  (values.zip values.tail).map (fun p => (p.2 - p.1) / p.1)

/-- `np.mean` of a list (0 on the empty list, as `0 / 0 = 0` in `ℚ`). -/
def npMean (l : List ℚ) : ℚ := l.sum / l.length

/-- The population variance underlying `np.std` (`ddof = 0`). -/
def npVariance (l : List ℚ) : ℚ :=
  (l.map (fun x => (x - npMean l) ^ 2)).sum / l.length

/-- `np.std`: the square root of the population variance. -/
noncomputable def npStd (l : List ℚ) : ℝ := Real.sqrt (npVariance l)

/-- `PerformanceTracker._calculate_sharpe_ratio` (lines 225-256) with the
default `risk_free_rate = 0`.  A zero snapshot value before the last one
raises `ZeroDivisionError` in Python, which the enclosing `try` turns into
the 0.0 return — the second branch.  The code's `std_return == 0` test is the
`npVariance = 0` test here: `npStd = 0 ↔ npVariance = 0` since the variance
is non-negative (`npVariance_nonneg` / `sharpe_ratio_spec`). -/
noncomputable def calculate_sharpe_ratio (values : List ℚ) : ℝ :=
  if values.length < 2 then 0
  else if (0 : ℚ) ∈ values.dropLast then 0
  else
    let returns := pct_returns values
    if returns.length = 0 then 0
    else if npVariance returns = 0 then 0
    else ((npMean returns : ℝ) / npStd returns) * Real.sqrt 365

lemma npVariance_nonneg (l : List ℚ) : 0 ≤ npVariance l := by
  unfold npVariance
  apply div_nonneg
  · apply List.sum_nonneg
    intro x hx
    obtain ⟨y, _, rfl⟩ := List.mem_map.mp hx
    positivity
  · exact_mod_cast Nat.zero_le _

lemma npStd_eq_zero_iff (l : List ℚ) : npStd l = 0 ↔ npVariance l = 0 := by
  unfold npStd
  rw [Real.sqrt_eq_zero (by exact_mod_cast npVariance_nonneg l)]
  exact_mod_cast Iff.rfl

/-- C9: the Sharpe ratio equals the mean of the successive
snapshot-to-snapshot returns divided by their (population) standard
deviation, multiplied by √365, and is exactly 0 whenever there are fewer
than 2 snapshots or the standard deviation of the returns is 0.  (In this
real-valued model no NaN/Inf exists; the function is total and the
degenerate branches return 0.) -/
theorem sharpe_ratio_spec (values : List ℚ) :
    (values.length < 2 → calculate_sharpe_ratio values = 0) ∧
    (npStd (pct_returns values) = 0 → calculate_sharpe_ratio values = 0) ∧
    (2 ≤ values.length → (0 : ℚ) ∉ values.dropLast →
      npStd (pct_returns values) ≠ 0 →
      calculate_sharpe_ratio values =
        ((npMean (pct_returns values) : ℝ) / npStd (pct_returns values)) *
          Real.sqrt 365) := by
  refine ⟨?_, ?_, ?_⟩
  · intro h
    unfold calculate_sharpe_ratio
    rw [if_pos h]
  · intro h
    have hv : npVariance (pct_returns values) = 0 := (npStd_eq_zero_iff _).mp h
    unfold calculate_sharpe_ratio
    by_cases h1 : values.length < 2
    · rw [if_pos h1]
    · rw [if_neg h1]
      by_cases h2 : (0 : ℚ) ∈ values.dropLast
      · rw [if_pos h2]
      · rw [if_neg h2]
        by_cases h3 : (pct_returns values).length = 0
        · simp [h3]
        · simp [h3, hv]
  · intro h1 h2 h3
    have hv : npVariance (pct_returns values) ≠ 0 :=
      fun hc => h3 ((npStd_eq_zero_iff _).mpr hc)
    unfold calculate_sharpe_ratio
    rw [if_neg (by omega : ¬ values.length < 2), if_neg h2]
    have hlen : (pct_returns values).length ≠ 0 := by
      unfold pct_returns
      rw [List.length_map, List.length_zip, List.length_tail]
      omega
    simp [hlen, hv]

/-- Witness for `sharpe_ratio_spec`: snapshots 1, 2, 1 give returns
[1, −1/2] with variance 9/16 ≠ 0, so the full formula applies. -/
theorem sharpe_ratio_spec_witness :
    (0 : ℚ) ∉ ([1, 2, 1] : List ℚ).dropLast ∧
    npStd (pct_returns [1, 2, 1]) ≠ 0 ∧
    calculate_sharpe_ratio [1, 2, 1] =
      ((npMean (pct_returns [1, 2, 1]) : ℝ) / npStd (pct_returns [1, 2, 1])) *
        Real.sqrt 365 := by
  have hvar : npVariance (pct_returns [1, 2, 1]) = 9/16 := by
    norm_num [pct_returns, npVariance, npMean, List.zip, List.zipWith, List.sum]
  have hstd : npStd (pct_returns [1, 2, 1]) ≠ 0 := by
    intro hc
    rw [npStd_eq_zero_iff, hvar] at hc
    norm_num at hc
  have hmem : (0 : ℚ) ∉ ([1, 2, 1] : List ℚ).dropLast := by
    norm_num [List.dropLast]
  exact ⟨hmem, hstd,
    (sharpe_ratio_spec [1, 2, 1]).2.2 (by norm_num) hmem hstd⟩

/-! ## RiskManager (`src/risk_manager.py`)

`RMState` holds the manager's configuration (from `__init__`, lines 38-69)
and its mutable tracking fields (`daily_pnl`, `initial_balance`,
`peak_balance`, `daily_trades`).  Methods that mutate `self` return the new
state explicitly. -/

structure RMState where
  max_portfolio_risk : ℚ
  max_position_size : ℚ
  max_leverage : ℕ
  default_stop_loss_pct : ℚ
  default_take_profit_pct : ℚ
  trailing_stop_pct : ℚ
  margin_call_threshold : ℚ
  max_drawdown : ℚ
  max_daily_loss : ℚ
  max_open_positions : ℕ
  max_correlation : ℚ
  daily_pnl : ℚ
  initial_balance : ℚ
  peak_balance : ℚ
  daily_trades : ℕ
  max_daily_trades : ℕ
  deriving Repr, DecidableEq

/-- A `RiskManager` built from an empty config dict: every `config.get`
default of `__init__` (lines 46-69). -/
def defaultRiskConfig : RMState :=
  { max_portfolio_risk := 1/50, max_position_size := 1/10, max_leverage := 10,
    default_stop_loss_pct := 1/50, default_take_profit_pct := 1/25,
    trailing_stop_pct := 1/100, margin_call_threshold := 4/5,
    max_drawdown := 3/20, max_daily_loss := 1/20, max_open_positions := 10,
    max_correlation := 7/10, daily_pnl := 0, initial_balance := 0,
    peak_balance := 0, daily_trades := 0, max_daily_trades := 50 }

/-- The raw risk-based quantity of `calculate_position_size` (lines 89-98):
`risk_amount / price_risk`. -/
def unclipped_position_size (account_balance risk_per_trade entry_price
    stop_loss_price : ℚ) : ℚ :=
  (account_balance * risk_per_trade) / |entry_price - stop_loss_price|

/-- The quantity after the max-position-size clip (lines 100-105). -/
def clipped_position_size (s : RMState) (account_balance entry_price
    stop_loss_price risk_per_trade : ℚ) : ℚ :=
  let position_size :=
    unclipped_position_size account_balance risk_per_trade entry_price stop_loss_price
  let max_position_value := account_balance * s.max_position_size
  if position_size * entry_price > max_position_value
  then max_position_value / entry_price
  else position_size

/-- `RiskManager.calculate_position_size` (lines 71-107): zero when
`price_risk == 0` (line 94), otherwise the clipped quantity rounded to three
decimal places (line 107); `risk_per_trade = none` means the
`max_portfolio_risk` default (lines 85-86). -/
def calculate_position_size (s : RMState) (account_balance entry_price
    stop_loss_price : ℚ) (risk_per_trade : Option ℚ) : ℚ :=
  let r := risk_per_trade.getD s.max_portfolio_risk
  if |entry_price - stop_loss_price| = 0 then 0
  else pyRound (clipped_position_size s account_balance entry_price stop_loss_price r) 3

/-- Counterexample to C5: with the default config, balance 10, entry 0.7 and
stop 0.6, the clip sets the quantity to `1/0.7 = 10/7`, but rounding to three
decimals returns 1.429, whose notional `1.429 × 0.7 = 1.0003` exceeds the cap
`balance × maxPositionSize = 1`; the returned value also differs from the
claimed unrounded quantity. -/
theorem calculate_position_size_exceeds_cap :
    calculate_position_size defaultRiskConfig 10 (7/10) (3/5) none = 1429/1000 ∧
    calculate_position_size defaultRiskConfig 10 (7/10) (3/5) none * (7/10) >
      10 * defaultRiskConfig.max_position_size ∧
    calculate_position_size defaultRiskConfig 10 (7/10) (3/5) none ≠
      clipped_position_size defaultRiskConfig 10 (7/10) (3/5) (1/50) := by
  have hclip : clipped_position_size defaultRiskConfig 10 (7/10) (3/5) (1/50) = 10/7 := by
    norm_num [clipped_position_size, unclipped_position_size, defaultRiskConfig, abs]
  have hval : calculate_position_size defaultRiskConfig 10 (7/10) (3/5) none = 1429/1000 := by
    unfold calculate_position_size
    rw [if_neg (by norm_num [abs])]
    rw [show (Option.getD none defaultRiskConfig.max_portfolio_risk) = (1/50 : ℚ) from rfl]
    rw [hclip]
    norm_num [pyRound, pyRoundInt]
  refine ⟨hval, ?_, ?_⟩
  · rw [hval]
    norm_num [defaultRiskConfig]
  · rw [hval, hclip]
    norm_num

/-- C5 (amended): `calculate_position_size` returns 0 when entry equals stop;
otherwise it returns the *three-decimal rounding* of
`(balance × riskPct) / |entry − stop|` clipped so that the **unrounded**
quantity satisfies `quantity × entry ≤ balance × maxPositionSize` (the
returned rounded value can exceed the cap by up to the rounding step);
Scenario A: balance 50, entry 100, stop 98, riskPct 0.02 gives pre-clip
quantity `(50 × 0.02)/2 = 0.5`. -/
theorem calculate_position_size_spec :
    (∀ (s : RMState) (balance entry stop : ℚ) (risk : Option ℚ),
      entry = stop → calculate_position_size s balance entry stop risk = 0) ∧
    (∀ (s : RMState) (balance entry stop : ℚ) (risk : Option ℚ), entry ≠ stop →
      calculate_position_size s balance entry stop risk =
        pyRound (clipped_position_size s balance entry stop
          (risk.getD s.max_portfolio_risk)) 3) ∧
    (∀ (s : RMState) (balance entry stop r : ℚ),
      0 ≤ balance * s.max_position_size →
      clipped_position_size s balance entry stop r * entry ≤
        balance * s.max_position_size) ∧
    unclipped_position_size 50 (1/50) 100 98 = 1/2 := by
  refine ⟨?_, ?_, ?_, ?_⟩
  · intro s balance entry stop risk h
    subst h
    simp [calculate_position_size]
  · intro s balance entry stop risk h
    unfold calculate_position_size
    rw [if_neg (by simpa [abs_eq_zero, sub_eq_zero] using h)]
  · intro s balance entry stop r h
    unfold clipped_position_size
    by_cases hb : unclipped_position_size balance r entry stop * entry >
        balance * s.max_position_size
    · rw [if_pos hb]
      by_cases he : entry = 0
      · exfalso
        rw [he, mul_zero] at hb
        linarith
      · rw [div_mul_cancel₀ _ he]
    · rw [if_neg hb]
      exact le_of_not_lt hb
  · norm_num [unclipped_position_size, abs]

/-- Witness for `calculate_position_size_spec`: entry = stop returns 0;
Scenario A's full run (clip active: 0.5 × 100 = 50 > 5) returns 0.05 and
respects the cap. -/
theorem calculate_position_size_spec_witness :
    calculate_position_size defaultRiskConfig 50 100 100 none = 0 ∧
    calculate_position_size defaultRiskConfig 50 100 98 (some (1/50)) =
      pyRound (clipped_position_size defaultRiskConfig 50 100 98 (1/50)) 3 ∧
    clipped_position_size defaultRiskConfig 50 100 98 (1/50) * 100 ≤
      50 * defaultRiskConfig.max_position_size := by
  refine ⟨calculate_position_size_spec.1 defaultRiskConfig 50 100 100 none rfl,
    ?_, calculate_position_size_spec.2.2.1 defaultRiskConfig 50 100 98 (1/50)
      (by norm_num [defaultRiskConfig])⟩
  exact calculate_position_size_spec.2.1 defaultRiskConfig 50 100 98
    (some (1/50)) (by norm_num)

/-! ### Risk assessment and the stateful checks -/

/-- `RiskLevel` (lines 12-17). -/
inductive RiskLevel where
  | LOW
  | MEDIUM
  | HIGH
  | CRITICAL
  deriving Repr, DecidableEq

/-- A Binance position dict as consumed by `RiskManager` (fields read with
`.get(..., 0)` are plain rationals; `marginRatio` is presence-checked and
`markPrice` falls back to `entryPrice`, hence the `Option`s). -/
structure Position where
  symbol : String
  entryPrice : ℚ
  positionAmt : ℚ
  unRealizedProfit : ℚ
  liquidationPrice : ℚ
  marginRatio : Option ℚ
  markPrice : Option ℚ
  deriving Repr, DecidableEq

/-- `PositionRisk` dataclass (lines 20-32). -/
structure PositionRisk where
  symbol : String
  entry_price : ℚ
  current_price : ℚ
  quantity : ℚ
  side : Side
  unrealized_pnl : ℚ
  unrealized_pnl_percent : ℚ
  liquidation_price : Option ℚ
  margin_ratio : Option ℚ
  risk_level : RiskLevel
  deriving Repr, DecidableEq

/-- `RiskManager._determine_risk_level` (lines 200-215). -/
def determine_risk_level (s : RMState) (pnl_percent : ℚ)
    (margin_ratio : Option ℚ) : RiskLevel :=
  let margin_critical : Bool :=
    match margin_ratio with
    | some m => decide (m > s.margin_call_threshold)
    | none => false
  if margin_critical then .CRITICAL
  else if pnl_percent < -10 then .CRITICAL
  else if pnl_percent < -5 then .HIGH
  else if pnl_percent < -2 then .MEDIUM
  else .LOW

/-- `RiskManager.assess_position_risk` (lines 151-198): a pure function of
the position and the current price (it reads no mutable manager state; only
the `margin_call_threshold` config enters through `_determine_risk_level`). -/
def assess_position_risk (s : RMState) (position : Position)
    (current_price : ℚ) : PositionRisk :=
  let entry_price := position.entryPrice
  let quantity := position.positionAmt
  let side : Side := if quantity > 0 then .LONG else .SHORT
  let unrealized_pnl_percent :=
    if entry_price = 0 then 0
    else if quantity > 0 then (current_price - entry_price) / entry_price * 100
    else (entry_price - current_price) / entry_price * 100
  { symbol := position.symbol
    entry_price := entry_price
    current_price := current_price
    quantity := |quantity|
    side := side
    unrealized_pnl := position.unRealizedProfit
    unrealized_pnl_percent := unrealized_pnl_percent
    liquidation_price :=
      if position.liquidationPrice ≠ 0 then some position.liquidationPrice else none
    margin_ratio := position.marginRatio
    risk_level := determine_risk_level s unrealized_pnl_percent position.marginRatio }

/-- The state mutation inside `check_trading_allowed` (lines 224-231):
first-call initialisation of `initial_balance` / `peak_balance`, then the
peak-balance ratchet. -/
def ctaState (s : RMState) (account_balance : ℚ) : RMState :=
  let s1 := if s.initial_balance = 0
    then { s with initial_balance := account_balance, peak_balance := account_balance }
    else s
  if account_balance > s1.peak_balance
  then { s1 with peak_balance := account_balance }
  else s1

/-- `RiskManager.check_trading_allowed` (lines 217-249): returns the mutated
state and the boolean verdict (the reason strings are not modelled).  When
`initial_balance` is still 0 with a negative `daily_pnl`, Python would raise
`ZeroDivisionError` (line 235); in `ℚ`, `x / 0 = 0` and the comparison with
`max_daily_loss` is false, so no claim exercises that branch. -/
def check_trading_allowed (s : RMState) (account_balance : ℚ) : RMState × Bool :=
  let s2 := ctaState s account_balance
  let allowed :=
    if s2.daily_pnl < 0 ∧ |s2.daily_pnl| / s2.initial_balance > s2.max_daily_loss
    then false
    else if 0 < s2.peak_balance ∧
      (s2.peak_balance - account_balance) / s2.peak_balance > s2.max_drawdown
    then false
    else if s2.daily_trades ≥ s2.max_daily_trades then false
    else true
  (s2, allowed)

/-- `RiskManager.update_daily_pnl` (lines 251-253). -/
def update_daily_pnl (s : RMState) (pnl : ℚ) : RMState :=
  { s with daily_pnl := s.daily_pnl + pnl }

/-- `RiskManager.increment_trade_count` (lines 255-257). -/
def increment_trade_count (s : RMState) : RMState :=
  { s with daily_trades := s.daily_trades + 1 }

/-- `RiskManager.reset_daily_metrics` (lines 259-262). -/
def reset_daily_metrics (s : RMState) : RMState :=
  { s with daily_pnl := 0, daily_trades := 0 }

/-- `RiskManager.validate_order` (lines 264-293): calls
`check_trading_allowed` (inheriting its state mutation), then pure checks
on open positions, leverage and position size. -/
def validate_order (s : RMState) (symbol : String)
    (quantity price account_balance : ℚ)
    (open_positions leverage : ℕ) : RMState × Bool :=
  let s' := (check_trading_allowed s account_balance).1
  let allowed := (check_trading_allowed s account_balance).2
  if allowed = false then (s', false)
  else if open_positions ≥ s.max_open_positions then (s', false)
  else if leverage > s.max_leverage then (s', false)
  else if quantity * price / account_balance > s.max_position_size then (s', false)
  else (s', true)

/-- Risk-level tallies of `get_portfolio_risk_summary` (line 316). -/
structure RiskLevelCounts where
  low : ℕ
  medium : ℕ
  high : ℕ
  critical : ℕ
  deriving Repr, DecidableEq

/-- Bump the tally of one risk level. -/
def bumpLevel (c : RiskLevelCounts) : RiskLevel → RiskLevelCounts
  | .LOW => { c with low := c.low + 1 }
  | .MEDIUM => { c with medium := c.medium + 1 }
  | .HIGH => { c with high := c.high + 1 }
  | .CRITICAL => { c with critical := c.critical + 1 }

/-- An entry of `critical_positions` (lines 325-329). -/
structure CriticalPosition where
  symbol : String
  pnl_percent : ℚ
  margin_ratio : Option ℚ
  deriving Repr, DecidableEq

/-- The summary dict of `get_portfolio_risk_summary` (lines 331-343). -/
structure RiskSummary where
  total_positions : ℕ
  total_unrealized_pnl : ℚ
  unrealized_pnl_percent : ℚ
  portfolio_risk_percent : ℚ
  daily_pnl : ℚ
  daily_trades : ℕ
  risk_level_counts : RiskLevelCounts
  critical_positions : List CriticalPosition
  trading_allowed : Bool
  account_balance : ℚ
  peak_balance : ℚ
  deriving Repr, DecidableEq

/-- `RiskManager.get_portfolio_risk_summary` (lines 295-343): assesses each
active position at its mark price (falling back to the entry price), tallies
risk levels and critical positions, and embeds `check_trading_allowed`'s
verdict — thereby also inheriting its state mutation; the reported
`peak_balance` is the post-mutation one. -/
def get_portfolio_risk_summary (s : RMState) (positions : List Position)
    (account_balance : ℚ) : RMState × RiskSummary :=
  let total_unrealized_pnl := (positions.map (·.unRealizedProfit)).sum
  let total_position_value :=
    (positions.map (fun p => |p.positionAmt| * p.entryPrice)).sum
  let active := positions.filter (fun p => p.positionAmt ≠ 0)
  let portfolio_risk_pct :=
    if 0 < account_balance then total_position_value / account_balance * 100 else 0
  let unrealized_pnl_pct :=
    if 0 < account_balance then total_unrealized_pnl / account_balance * 100 else 0
  let tally := active.foldl
    (fun (acc : RiskLevelCounts × List CriticalPosition) p =>
      let current_price := p.markPrice.getD p.entryPrice
      let risk := assess_position_risk s p current_price
      (bumpLevel acc.1 risk.risk_level,
       if risk.risk_level = .CRITICAL
       then acc.2 ++ [⟨p.symbol, risk.unrealized_pnl_percent, risk.margin_ratio⟩]
       else acc.2))
    (⟨0, 0, 0, 0⟩, [])
  ((check_trading_allowed s account_balance).1,
   { total_positions := active.length
     total_unrealized_pnl := pyRound total_unrealized_pnl 2
     unrealized_pnl_percent := pyRound unrealized_pnl_pct 2
     portfolio_risk_percent := pyRound portfolio_risk_pct 2
     daily_pnl := pyRound s.daily_pnl 2
     daily_trades := s.daily_trades
     risk_level_counts := tally.1
     critical_positions := tally.2
     trading_allowed := (check_trading_allowed s account_balance).2
     account_balance := pyRound account_balance 2
     peak_balance := pyRound (check_trading_allowed s account_balance).1.peak_balance 2 })

/-- Counterexample to C7: on a fresh manager (`initial_balance = 0`),
`check_trading_allowed(100)` writes `initial_balance = peak_balance = 100`,
so the assessment call is *not* pure. -/
theorem check_trading_allowed_mutates_state :
    (check_trading_allowed defaultRiskConfig 100).1.peak_balance = 100 ∧
    (check_trading_allowed defaultRiskConfig 100).1.initial_balance = 100 ∧
    defaultRiskConfig.peak_balance = 0 ∧
    defaultRiskConfig.initial_balance = 0 := by
  refine ⟨?_, ?_, rfl, rfl⟩ <;>
    norm_num [check_trading_allowed, ctaState, defaultRiskConfig]

/-- C7 (amended): `update_daily_pnl`, `increment_trade_count` and
`reset_daily_metrics` touch only their own fields, and
`assess_position_risk` is a pure function; but `check_trading_allowed` — and
therefore `validate_order` and `get_portfolio_risk_summary`, which call it —
additionally initialises `initial_balance`/`peak_balance` on the first call
(when `initial_balance = 0`) and ratchets `peak_balance` up to the supplied
balance; no other field ever changes. -/
theorem risk_manager_state_effects :
    (∀ (s : RMState) (b : ℚ),
      (check_trading_allowed s b).1 =
        { s with
          initial_balance := if s.initial_balance = 0 then b else s.initial_balance,
          peak_balance :=
            if b > (if s.initial_balance = 0 then b else s.peak_balance)
            then b
            else (if s.initial_balance = 0 then b else s.peak_balance) }) ∧
    (∀ (s : RMState) (sym : String) (q p b : ℚ) (op lev : ℕ),
      (validate_order s sym q p b op lev).1 = (check_trading_allowed s b).1) ∧
    (∀ (s : RMState) (ps : List Position) (b : ℚ),
      (get_portfolio_risk_summary s ps b).1 = (check_trading_allowed s b).1) ∧
    (∀ (s : RMState) (pnl : ℚ),
      update_daily_pnl s pnl = { s with daily_pnl := s.daily_pnl + pnl }) ∧
    (∀ s : RMState,
      increment_trade_count s = { s with daily_trades := s.daily_trades + 1 }) ∧
    (∀ s : RMState,
      reset_daily_metrics s = { s with daily_pnl := 0, daily_trades := 0 }) := by
  refine ⟨?_, ?_, ?_, fun _ _ => rfl, fun _ => rfl, fun _ => rfl⟩
  · intro s b
    show ctaState s b = _
    unfold ctaState
    by_cases h1 : s.initial_balance = 0
    · simp only [h1, if_pos]
      by_cases h2 : b > b
      · exact absurd h2 (lt_irrefl b)
      · simp [h2]
    · simp only [h1, if_neg, ite_false]
      by_cases h2 : b > s.peak_balance
      · simp [h2]
      · simp [h2]
  · intro s sym q p b op lev
    unfold validate_order
    dsimp only
    split_ifs <;> rfl
  · intro s ps b
    rfl

/-! ## Roll maneuver (`src/advanced_position_manager.py` lines 41-122 and
`src/alpha_arena_bot.py` lines 618-739) -/

/-- The position fields read by `can_roll_position` (lines 73-76, 92). -/
structure RollCheckPosition where
  unRealizedProfit : ℚ
  positionAmt : ℚ
  entryPrice : ℚ
  markPrice : ℚ
  leverage : ℚ
  deriving Repr, DecidableEq

/-- The balance-tiered reinvest fraction of `can_roll_position`
(lines 100-105): 65% below $100, 60% below $500, else 50%. -/
def reinvest_ratio (available_balance : ℚ) : ℚ :=
  if available_balance < 100 then 65/100
  else if available_balance < 500 then 60/100
  else 50/100

/-- `AdvancedPositionManager.can_roll_position` (lines 41-122): `(ok, usable
pnl)` (the reason string is not modelled; `max_rolls` is accepted and ignored
by the code).  With `positionAmt = 0`, Python raises `ZeroDivisionError`
caught by the enclosing `try` into `(False, 0)`; here `pnl / 0 = 0` makes
`profit_pct = 0 < threshold`, rejecting identically for positive thresholds. -/
def can_roll_position (position : Option RollCheckPosition)
    (available_balance : ℚ) (profit_threshold_pct : ℚ) : Bool × ℚ :=
  match position with
  | none => (false, 0)
  | some p =>
    if p.entryPrice = 0 then (false, 0)
    else
      let position_value := |p.positionAmt| * p.entryPrice
      let profit_pct := p.unRealizedProfit / position_value * 100
      if profit_pct < profit_threshold_pct then (false, 0)
      else
        let position_margin := position_value / p.leverage
        if position_margin > available_balance * (8/10) then (false, 0)
        else
          let usable_pnl := p.unRealizedProfit * reinvest_ratio available_balance
          if usable_pnl < 5 then (false, 0)
          else (true, usable_pnl)

/-- The clamp of the AI-supplied reinvest percentage in
`execute_roll_strategy` (line 676): `max(50.0, min(70.0, reinvest_pct))`. -/
def clamp_reinvest_pct (reinvest_pct : ℚ) : ℚ := max 50 (min 70 reinvest_pct)

/-- The reinvest amount of `execute_roll_strategy` (lines 665-678): the
0.05% taker fee is deducted from the unrealized pnl, then the clamped
percentage is applied. -/
def roll_reinvest_amount (unrealized_pnl reinvest_pct : ℚ) : ℚ :=
  (unrealized_pnl - unrealized_pnl * (5/10000)) * (clamp_reinvest_pct reinvest_pct / 100)

/-- The eligible reinvest amount as the spec's sentence describes it
(balance-tiered fraction of the profit, *reduced by the 0.05% fee*) — for
comparison with what the code computes. -/
def claimed_roll_usable (unrealized_pnl available_balance : ℚ) : ℚ :=
  unrealized_pnl * reinvest_ratio available_balance * (1 - 5/10000)

/-- Counterexample to C8: position with unrealized pnl $7.696, entry 100,
quantity 1, leverage 10, balance $50 (tier 65%).  `can_roll_position`
computes usable = 7.696 × 0.65 = 5.0024 ≥ 5 and accepts, but the claim's
fee-reduced amount 5.0024 × 0.9995 ≈ 4.99990 is below the $5 threshold, so
the claim predicts rejection: no fee is deducted in `can_roll_position`. -/
theorem can_roll_position_no_fee_before_threshold :
    can_roll_position (some ⟨962/125, 1, 100, 107, 10⟩) 50 6 = (true, 6253/1250) ∧
    claimed_roll_usable (962/125) 50 < 5 ∧
    (5 : ℚ) ≤ 6253/1250 := by
  refine ⟨?_, ?_, by norm_num⟩
  · norm_num [can_roll_position, reinvest_ratio, abs]
  · norm_num [claimed_roll_usable, reinvest_ratio]

/-- C8 (amended): the balance-tiered fraction (65% < $100, 60% < $500, else
50%) and the $5 minimum live in `can_roll_position`, which deducts **no**
fee: once the profit-percentage and margin guards pass, it accepts iff
`pnl × tier ≥ 5` and reports exactly `pnl × tier`.  The 0.05% fee deduction
happens separately in `execute_roll_strategy`, which multiplies the
fee-reduced profit by an AI-supplied percentage clamped to [50%, 70%] — not
by the balance tier. -/
theorem roll_reinvest_spec :
    (∀ (p : RollCheckPosition) (avail threshold : ℚ),
      p.entryPrice ≠ 0 →
      ¬ (p.unRealizedProfit / (|p.positionAmt| * p.entryPrice) * 100 < threshold) →
      ¬ (|p.positionAmt| * p.entryPrice / p.leverage > avail * (8/10)) →
      can_roll_position (some p) avail threshold =
        (if p.unRealizedProfit * reinvest_ratio avail < 5 then (false, 0)
         else (true, p.unRealizedProfit * reinvest_ratio avail))) ∧
    (∀ (pnl pct : ℚ), roll_reinvest_amount pnl pct =
      pnl * (1 - 5/10000) * (clamp_reinvest_pct pct / 100)) ∧
    (∀ pct : ℚ, 50 ≤ clamp_reinvest_pct pct ∧ clamp_reinvest_pct pct ≤ 70) := by
  refine ⟨?_, ?_, ?_⟩
  · intro p avail threshold h1 h2 h3
    unfold can_roll_position
    dsimp only
    rw [if_neg h1, if_neg h2, if_neg h3]
  · intro pnl pct
    unfold roll_reinvest_amount
    ring
  · intro pct
    unfold clamp_reinvest_pct
    exact ⟨le_max_left _ _, max_le (by norm_num) (min_le_left _ _)⟩

/-- Witness for `roll_reinvest_spec`: pnl $20, entry 100, quantity 1,
leverage 10, balance $50 — accepted with usable 20 × 0.65 = 13. -/
theorem roll_reinvest_spec_witness :
    can_roll_position (some ⟨20, 1, 100, 107, 10⟩) 50 6 = (true, 13) ∧
    roll_reinvest_amount 20 60 = 20 * (1 - 5/10000) * (clamp_reinvest_pct 60 / 100) := by
  constructor
  · rw [roll_reinvest_spec.1 ⟨20, 1, 100, 107, 10⟩ 50 6
      (by norm_num) (by norm_num [abs]) (by norm_num [abs])]
    norm_num [reinvest_ratio]
  · exact roll_reinvest_spec.2.1 20 60

end AlphaArena
